import Mathlib

/-!
Verification development for the spec-ledger static comparison site.

The repository is client-side JavaScript operating on a JSON dataset of
phone records.  This file gives a shallow embedding of the data model and
of the pure core of each operation the specification talks about:

* JavaScript values (`JValue`) with JS truthiness, string conversion and
  property access;
* the dataset loader `loadPhones` with its ordered candidate paths
  (src/unnamed/part_000, `loadPhones`), the network being modelled as a
  function from path to the optional parsed JSON document;
* the index-page filter `matches` (src/unnamed/part_000, `renderCompare`);
* the record resolver and comparison-table generator of
  src/assets/js/site.js (`generateComparisonTable`, `flattenValue`,
  `addStructuredData`, `getComparisonIds`), the relevant DOM sinks being
  modelled as explicit state (`CompareDom`, `ScriptTag`, `PageEnv`).

Theorems at the end settle the frozen claims about these operations.
-/

namespace SpecLedger

/-- Model of a JavaScript/JSON value as it occurs in the dataset and in
the scripts: null, undefined, strings, (integer) numbers, booleans,
objects as ordered key-value lists, arrays. -/
inductive JValue : Type where
  | nullV : JValue
  | undefV : JValue
  | str (s : String) : JValue
  | num (n : Int) : JValue
  | boolV (b : Bool) : JValue
  | obj (fields : List (String × JValue)) : JValue
  | arr (elems : List JValue) : JValue

/-- A phone record is a JS object: an ordered list of own keys with values. -/
abbrev Phone : Type := List (String × JValue)

/-- JS truthiness of a value, as used by `filter(v => v)`, `data?.items`
guards and `if (brand.value)`. -/
def truthy : JValue → Bool
  | .nullV => false
  | .undefV => false
  | .str s => !(s == "")
  | .num n => !(n == 0)
  | .boolV b => b
  | .obj _ => true
  | .arr _ => true

mutual

/-- JS `String(v)` conversion, as performed by template literals and by
`Array.prototype.join` on non-null elements. -/
def jsString : JValue → String
  | .undefV => "undefined"
  | .nullV => "null"
  | .str s => s
  | .num n => toString n
  | .boolV b => if b then "true" else "false"
  | .obj _ => "[object Object]"
  | .arr xs => String.intercalate "," (jsArrParts xs)

/-- Element conversion of `Array.prototype.join`: null and undefined
become the empty string, everything else goes through `String(v)`. -/
def jsArrParts : List JValue → List String
  | [] => []
  | .nullV :: rest => "" :: jsArrParts rest
  | .undefV :: rest => "" :: jsArrParts rest
  | v :: rest => jsString v :: jsArrParts rest

end

/-- JS optional-chaining property access `v?.k`: gives the field of an
object, undefined on anything else (null, undefined, primitives, arrays
without such a property). -/
def propAccess (v : JValue) (k : String) : JValue :=
  match v with
  | .obj fields => (fields.lookup k).getD .undefV
  | _ => .undefV

/-- Property access `phone[k]` on a record; a missing key reads as
undefined. -/
def getField (p : Phone) (k : String) : JValue :=
  (p.lookup k).getD .undefV

/-- Per-character lowercasing, modelling `String.prototype.toLowerCase`. -/
def lowerStr (s : String) : String := String.mk (s.data.map Char.toLower)

/-- Character-list containment scan used to model
`String.prototype.includes`. -/
def listContainsSub (needle : List Char) : List Char → Bool
  | [] => needle.isEmpty
  | c :: rest => needle.isPrefixOf (c :: rest) || listContainsSub needle rest

/-- `hay.includes(needle)`: substring test. -/
def strContains (hay needle : String) : Bool := listContainsSub needle.data hay.data

/-- The helper `text(v)` of part_000: `(v ?? "").toString().toLowerCase()`. -/
def text (v : JValue) : String :=
  lowerStr (match v with
    | .nullV => ""
    | .undefV => ""
    | w => jsString w)

/-- JS `String.prototype.trim`: strip whitespace from both ends. -/
def jsTrim (s : String) : String :=
  String.mk (((s.data.dropWhile Char.isWhitespace).reverse.dropWhile Char.isWhitespace).reverse)

/-- `String.prototype.split(',')` on the character level. -/
def splitCommaAux : List Char → List Char → List (List Char)
  | [], acc => [acc.reverse]
  | ',' :: rest, acc => acc.reverse :: splitCommaAux rest []
  | c :: rest, acc => splitCommaAux rest (c :: acc)

/-- `s.split(',').map(id => id.trim())`, the identifier-list parser used
for both the `ids` query parameter and the `data-ids` attribute. -/
def splitTrim (s : String) : List String :=
  (splitCommaAux s.data []).map (fun cs => jsTrim (String.mk cs))

/-! ### Dataset loader (src/unnamed/part_000) -/

/-- The ordered candidate URLs of `loadPhones`. -/
def phonePaths : List String :=
  ["/spec-ledger/data/phones.json",
   "/spec-ledger/data/phones.example.json",
   "/data/phones.json",
   "/data/phones.example.json"]

/-- `data?.items` on a parsed JSON document. -/
def getItems (data : JValue) : JValue := propAccess data "items"

/-- One candidate outcome: `none` models a failed fetch or unparseable
body (the `catch` continues the loop); `some data` a parsed document. -/
abbrev Network : Type := String → Option JValue

/-- Whether a candidate outcome makes `loadPhones` stop: the fetch
succeeded and `data?.items` is truthy. -/
def accepted (o : Option JValue) : Bool :=
  match o with
  | none => false
  | some data => truthy (getItems data)

/-- The loop body of `loadPhones` over the remaining candidate paths. -/
def loadPhonesAux (net : Network) : List String → Except String JValue
  | [] => .error "No phone dataset found"
  | p :: rest =>
    match net p with
    | none => loadPhonesAux net rest
    | some data =>
      if truthy (getItems data) then .ok (getItems data) else loadPhonesAux net rest

/-- `loadPhones`: try the candidate paths in order, return `data.items`
of the first accepted document, otherwise throw. -/
def loadPhones (net : Network) : Except String JValue :=
  loadPhonesAux net phonePaths

/-- The visible message written by the DOMContentLoaded handler when
`loadPhones` throws. -/
def loadErrorMsg : String := "Failed to load data. Ensure data/phones.json exists."

/-- The error text shown by the boot handler of part_000: on any load
failure the `load-error` element is unhidden with a fixed message. -/
def bootErrorText (net : Network) : Option String :=
  match loadPhones net with
  | .error _ => some loadErrorMsg
  | .ok _ => none

/-! ### Index-page filter (src/unnamed/part_000, `renderCompare`) -/

/-- JS strict equality `v === s` against a known string. -/
def strictEqStr (v : JValue) (s : String) : Bool :=
  match v with
  | .str t => t == s
  | _ => false

/-- The search template of `matches`:
the literal `brand model id chipsetname` string with JS conversion of
each interpolated value (missing fields print as "undefined"). -/
def searchStr (i : Phone) : String :=
  jsString (getField i "brand") ++ " " ++ jsString (getField i "model") ++ " "
    ++ jsString (getField i "id") ++ " " ++ jsString (propAccess (getField i "chipset") "name")

/-- The filter predicate `matches` of the compare index: reject on a
non-empty brand constraint that is not strictly equal to the record
brand; accept on an empty query; otherwise substring-test the lowercased
search template. -/
def recordMatches (brandVal qVal : String) (i : Phone) : Bool :=
  if brandVal != "" && !(strictEqStr (getField i "brand") brandVal) then false
  else
    let query := text (.str qVal)
    if query == "" then true
    else strContains (text (.str (searchStr i))) query

/-- `repaint` keeps exactly the matching records, in dataset order. -/
def filteredItems (items : List Phone) (brandVal qVal : String) : List Phone :=
  items.filter (recordMatches brandVal qVal)

/-! ### Record resolver and comparison table (src/assets/js/site.js) -/

/-- The lookup predicate `p.id === id` of the resolver. -/
def idEq (p : Phone) (i : String) : Bool := strictEqStr (getField p "id") i

/-- The resolver of `generateComparisonTable`:
`selectedIds.map(id => phones.find(p => p.id === id)).filter(p => p !== undefined)`. -/
def resolveIds (selectedIds : List String) (phones : List Phone) : List Phone :=
  (selectedIds.map (fun i => phones.find? (fun p => idEq p i))).filterMap id

/-- The fixed canonical display order `specOrder`. -/
def specOrder : List String :=
  ["brand", "model", "release_year",
   "display", "chipset", "ram_gb", "storage_gb",
   "battery_mah", "camera", "os"]

/-- The label table `specLabels`. -/
def specLabels : List (String × String) :=
  [("brand", "Brand"),
   ("model", "Model"),
   ("release_year", "Release Year"),
   ("display", "Display"),
   ("chipset", "Chipset"),
   ("ram_gb", "RAM"),
   ("storage_gb", "Storage"),
   ("battery_mah", "Battery"),
   ("camera", "Camera"),
   ("os", "Operating System")]

/-- `specLabels[spec] || spec`: the label, falling back to the raw key on
a missing or falsy entry. -/
def labelOf (s : String) : String :=
  match specLabels.lookup s with
  | some l => if l != "" then l else s
  | none => s

/-- One step of `allSpecs.add(key)` guarded by the identity-field
exclusion: insertion-ordered set insert. -/
def addSpecKey (acc : List String) (k : String) : List String :=
  if k != "id" && k != "source_url" then
    (if acc.contains k then acc else acc ++ [k])
  else acc

/-- The `allSpecs` set: union of the own keys of the selected phones,
excluding id and source_url, in first-seen order. -/
def allSpecsOf (sel : List Phone) : List String :=
  sel.foldl (fun acc p => (p.map Prod.fst).foldl addSpecKey acc) []

/-- The keys that become table rows: the canonical order filtered down to
the keys occurring in `allSpecs`. -/
def displayedSpecs (sel : List Phone) : List String :=
  specOrder.filter (fun s => (allSpecsOf sel).contains s)

/-- `flattenValue`: null and undefined display as a dash; objects and
arrays join their truthy values (JS `Object.values` of an array gives its
elements) with a slash separator; everything else is `String(value)`. -/
def flattenValue : JValue → String
  | .nullV => "—"
  | .undefV => "—"
  | .obj fields =>
    String.intercalate " / " (jsArrParts ((fields.map Prod.snd).filter truthy))
  | .arr xs => String.intercalate " / " (jsArrParts (xs.filter truthy))
  | v => jsString v

/-- The header row markup of the comparison table. -/
def buildHeaderRow (sel : List Phone) : String :=
  "<th class=\"spec-label\">Specification</th>"
    ++ String.join (sel.map (fun p =>
        "<th class=\"phone-header\">" ++ jsString (getField p "brand")
          ++ "<br><strong>" ++ jsString (getField p "model") ++ "</strong></th>"))

/-- One spec row of the comparison table body. -/
def rowHtml (sel : List Phone) (s : String) : String :=
  "<tr><th class=\"spec-label\">" ++ labelOf s ++ "</th>"
    ++ String.join (sel.map (fun p => "<td>" ++ flattenValue (getField p s) ++ "</td>"))
    ++ "</tr>"

/-- The trailing source-link row. -/
def sourceRow (sel : List Phone) : String :=
  "<tr><th class=\"spec-label\">Source</th>"
    ++ String.join (sel.map (fun p =>
        "<td><a href=\"" ++ jsString (getField p "source_url")
          ++ "\" target=\"_blank\" rel=\"noopener\">View Specs</a></td>"))
    ++ "</tr>"

/-- The full table body: canonical-order rows, then the source row. -/
def buildTableBody (sel : List Phone) : String :=
  String.join ((displayedSpecs sel).map (rowHtml sel)) ++ sourceRow sel

/-- A JSON-LD script tag in the document head; `productSchema` models the
`data-product-schema="true"` marker attribute. -/
structure ScriptTag where
  productSchema : Bool
  content : String
deriving DecidableEq

/-- The name of the comparison Dataset schema, standing for the JSON-LD
payload (the full `JSON.stringify` output is abstracted to this
identifying string). -/
def comparisonSchemaName (sel : List Phone) : String :=
  String.intercalate " vs "
    (sel.map (fun p => jsString (getField p "brand") ++ " " ++ jsString (getField p "model")))

/-- `addStructuredData`: on a non-empty selection, append a
product-schema script tag unless one is already present. -/
def addStructuredData (sel : List Phone) (head : List ScriptTag) : List ScriptTag :=
  if sel.isEmpty then head
  else if head.any (fun t => t.productSchema) then head
  else head ++ [⟨true, comparisonSchemaName sel⟩]

/-- The DOM sinks touched by `generateComparisonTable`: the error banner
visibility and text, the header row, the table body, and the head script
tags. -/
structure CompareDom where
  errorVisible : Bool
  errorText : String
  headerRow : String
  tableBody : String
  scripts : List ScriptTag

/-- The neutral empty-state placeholder row for an empty identifier
request. -/
def selectPromptRow : String :=
  "<tr><td class=\"spec-label\">Select phones to compare using URL parameters (e.g., ?ids=google-pixel-10,google-pixel-10-pro)</td></tr>"

/-- The error-banner text of the zero-resolution path. -/
def noValidIdsMsg : String := "No valid phone IDs found. Check the available phones list below."

/-- The no-match placeholder row of the zero-resolution path. -/
def noMatchRow : String :=
  "<tr><td class=\"spec-label\">No phones found with provided IDs.</td></tr>"

/-- `generateComparisonTable` as a state transformer on the modelled DOM:
empty request writes the neutral placeholder; a non-empty request with
zero resolved records shows the error banner and the no-match row; a
non-empty resolution renders the table, injects structured data, and
hides the error banner. -/
def generateComparisonTable (selectedIds : List String) (phones : List Phone)
    (dom : CompareDom) : CompareDom :=
  if selectedIds.isEmpty then
    { dom with tableBody := selectPromptRow }
  else
    let selectedPhones := resolveIds selectedIds phones
    if selectedPhones.isEmpty then
      { dom with
          errorVisible := true
          errorText := noValidIdsMsg
          tableBody := noMatchRow }
    else
      { errorVisible := false
        errorText := dom.errorText
        headerRow := buildHeaderRow selectedPhones
        tableBody := buildTableBody selectedPhones
        scripts := addStructuredData selectedPhones dom.scripts }

/-! ### Comparison-identifier source (src/assets/js/site.js) -/

/-- The inputs of `getComparisonIds`: the optional `data-ids` attribute
value of a `[data-ids]` element (none when no such element exists) and
the optional `ids` query parameter. -/
structure PageEnv where
  dataIdsAttr : Option String
  idsParam : Option String

/-- `getQueryParams`: comma-split and trim a present, truthy `ids`
parameter. -/
def getQueryParams (idsParam : Option String) : List String :=
  match idsParam with
  | some s => if s != "" then splitTrim s else []
  | none => []

/-- `getComparisonIds`: a `[data-ids]` element, when present, supplies
the identifiers; only otherwise are the query parameters consulted. -/
def getComparisonIds (page : PageEnv) : List String :=
  match page.dataIdsAttr with
  | some v => if v != "" then splitTrim v else []
  | none => getQueryParams page.idsParam

/-! ### Concrete sample inputs used by witnesses and counterexamples -/

/-- The scenario record of the specification:
`[{id:"a",brand:"Acme",model:"X1",chipset:{name:"Z1"}}]`. -/
def acmeX1 : Phone :=
  [("id", .str "a"), ("brand", .str "Acme"), ("model", .str "X1"),
   ("chipset", .obj [("name", .str "Z1")])]

/-- A network on which every candidate fetch fails. -/
def netFail : Network := fun _ => none

/-- A network whose first candidate parses as a bare array of records
(no `items` key) and whose other candidates fail. -/
def netBareArray : Network := fun p =>
  if p == "/spec-ledger/data/phones.json" then
    some (.arr [.obj [("id", .str "a"), ("brand", .str "Acme")]])
  else none

/-- An initial comparison-page DOM: error banner hidden, empty sinks. -/
def domInit : CompareDom :=
  { errorVisible := false, errorText := "", headerRow := "", tableBody := "", scripts := [] }

/-- A page that carries both a `data-ids` attribute and an `ids` query
parameter. -/
def pageBoth : PageEnv := { dataIdsAttr := some "a", idsParam := some "b" }

/-! ### Helper lemmas and claim theorems -/

theorem strictEqStr_iff (v : JValue) (s : String) : strictEqStr v s = true ↔ v = .str s := by
  cases v <;> simp [strictEqStr]

theorem lowerStr_eq_empty (s : String) : lowerStr s = "" ↔ s = "" := by
  constructor
  · intro h
    have hd : s.data.map Char.toLower = [] := congrArg String.data h
    cases s with
    | mk data => simp at hd; simp [hd]
  · intro h; subst h; rfl

theorem resolveIds_eq_filterMap (L : List String) (D : List Phone) :
    resolveIds L D = L.filterMap (fun i => D.find? (fun p => idEq p i)) := by
  simp [resolveIds, List.filterMap_map]

theorem idEq_of_find (D : List Phone) (i : String) (r : Phone)
    (h : D.find? (fun p => idEq p i) = some r) : idEq r i = true := by
  simpa using List.find?_some h

theorem find?_first_match (D1 D2 : List Phone) (r : Phone) (i : String)
    (hr : idEq r i = true) (h1 : ∀ p ∈ D1, idEq p i = false) :
    (D1 ++ r :: D2).find? (fun p => idEq p i) = some r := by
  induction D1 with
  | nil => simp [List.find?_cons, hr]
  | cons q D1 ih =>
    have hq : idEq q i = false := h1 q (List.mem_cons_self _ _)
    simpa [List.find?_cons, hq] using ih (fun p hp => h1 p (List.mem_cons_of_mem _ hp))

/-- C1: the record resolver keeps, in the order of the requested list,
exactly those identifiers that match some record, each mapped to a record
of the dataset; identifiers with no match are omitted. -/
theorem resolveIds_requested_order (L : List String) (D : List Phone) :
    (resolveIds L D).map (fun p => getField p "id")
        = (L.filter (fun i => D.any (fun p => idEq p i))).map (fun i => JValue.str i)
      ∧ ∀ p, p ∈ resolveIds L D → p ∈ D := by
  constructor
  · rw [resolveIds_eq_filterMap]
    induction L with
    | nil => rfl
    | cons i L ih =>
      rw [List.filterMap_cons, List.filter_cons]
      cases hf : D.find? (fun p => idEq p i) with
      | none =>
        have hany : D.any (fun p => idEq p i) = false := by
          have h := List.find?_eq_none.mp hf
          simp only [List.any_eq_false]
          intro x hx
          simpa using h x hx
        simp [hany, ih]
      | some r =>
        have hid : idEq r i = true := idEq_of_find D i r hf
        have hidv : getField r "id" = .str i := (strictEqStr_iff _ _).mp hid
        have hany : D.any (fun p => idEq p i) = true := by
          simp only [List.any_eq_true]
          exact ⟨r, List.mem_of_find?_eq_some hf, by simpa using hid⟩
        simp [hany, hidv, ih]
  · intro p hp
    rw [resolveIds_eq_filterMap] at hp
    rcases List.mem_filterMap.mp hp with ⟨i, _, hfi⟩
    exact List.mem_of_find?_eq_some hfi

theorem resolveIds_requested_order_witness : acmeX1 ∈ ([acmeX1] : List Phone) :=
  (resolveIds_requested_order ["a"] [acmeX1]).2 acmeX1 (by
    have h : resolveIds ["a"] [acmeX1] = [acmeX1] := rfl
    rw [h]
    exact List.mem_cons_self _ _)

/-- C10: resolution is per-identifier, first match in dataset order: when
a record is the first of the dataset carrying a given id, each of the k
occurrences of that id in the request contributes that record, so it
appears k times in the resolved list, and every resolved record carrying
that id is that earliest record. -/
theorem resolveIds_first_match (L : List String) (D D1 D2 : List Phone) (r : Phone)
    (i : String) (hD : D = D1 ++ r :: D2) (hr : idEq r i = true)
    (h1 : ∀ p ∈ D1, idEq p i = false) :
    (resolveIds L D).countP (fun p => idEq p i) = L.count i
      ∧ ∀ p ∈ resolveIds L D, idEq p i = true → p = r := by
  subst hD
  have hfind : (D1 ++ r :: D2).find? (fun p => idEq p i) = some r :=
    find?_first_match D1 D2 r i hr h1
  constructor
  · rw [resolveIds_eq_filterMap]
    induction L with
    | nil => rfl
    | cons j L ih =>
      rw [List.filterMap_cons, List.count_cons]
      by_cases hji : j = i
      · subst hji
        rw [hfind, List.countP_cons, ih]
        simp [hr]
      · cases hf : (D1 ++ r :: D2).find? (fun p => idEq p j) with
        | none =>
          rw [ih]
          simp [hji]
        | some s =>
          have hsj : getField s "id" = .str j :=
            (strictEqStr_iff _ _).mp (idEq_of_find _ j s hf)
          have hsi : idEq s i = false := by
            simp [idEq, hsj, strictEqStr]
            exact fun h => absurd h hji
          rw [List.countP_cons, ih]
          simp [hsi, hji]
  · intro p hp hpi
    rw [resolveIds_eq_filterMap] at hp
    rcases List.mem_filterMap.mp hp with ⟨j, _, hfj⟩
    have hpj : getField p "id" = .str j :=
      (strictEqStr_iff _ _).mp (idEq_of_find _ j p hfj)
    have hpiv : getField p "id" = .str i := (strictEqStr_iff _ _).mp hpi
    have hji : j = i := by
      have := hpj ▸ hpiv
      injection this
    subst hji
    rw [hfind] at hfj
    exact (Option.some.inj hfj).symm

theorem resolveIds_first_match_witness :
    (resolveIds ["a", "a"] [acmeX1]).countP (fun p => idEq p "a")
      = (["a", "a"] : List String).count "a" :=
  (resolveIds_first_match ["a", "a"] [acmeX1] [] [] acmeX1 "a" rfl rfl
    (fun p hp => absurd hp (List.not_mem_nil p))).1

/-- C2: the comparison-table generator renders the zero-resolution error
path for a non-empty request with no matches (error banner shown with
the no-valid-IDs message, no-match placeholder row) and the neutral
empty-state placeholder with an untouched error banner for an empty
request; the two placeholder texts differ. -/
theorem generateComparisonTable_cases (ids : List String) (phones : List Phone)
    (dom : CompareDom) :
    (ids = [] →
        (generateComparisonTable ids phones dom).tableBody = selectPromptRow
          ∧ (generateComparisonTable ids phones dom).errorVisible = dom.errorVisible
          ∧ (generateComparisonTable ids phones dom).errorText = dom.errorText)
      ∧ (ids ≠ [] → resolveIds ids phones = [] →
          (generateComparisonTable ids phones dom).errorVisible = true
            ∧ (generateComparisonTable ids phones dom).errorText = noValidIdsMsg
            ∧ (generateComparisonTable ids phones dom).tableBody = noMatchRow)
      ∧ strContains noValidIdsMsg "No valid phone IDs found" = true
      ∧ selectPromptRow ≠ noMatchRow := by
  refine ⟨?_, ?_, by decide, by decide⟩
  · intro h
    subst h
    simp [generateComparisonTable]
  · intro hne hres
    have hni : ids.isEmpty = false := by
      cases ids with
      | nil => exact absurd rfl hne
      | cons a l => rfl
    simp [generateComparisonTable, hni, hres]

theorem generateComparisonTable_cases_witness :
    (generateComparisonTable ["x", "y"] [acmeX1] domInit).errorVisible = true
      ∧ (generateComparisonTable [] [acmeX1] domInit).errorVisible = false :=
  ⟨((generateComparisonTable_cases ["x", "y"] [acmeX1] domInit).2.1
      (by decide) (by rfl)).1,
    ((generateComparisonTable_cases [] [acmeX1] domInit).1 rfl).2.1⟩

/-- All-fail case of the loader loop: no candidate is accepted, so the
loop falls through to the terminal error. -/
theorem loadPhonesAux_all_fail (net : Network) (ps : List String)
    (h : ∀ p ∈ ps, accepted (net p) = false) :
    loadPhonesAux net ps = .error "No phone dataset found" := by
  induction ps with
  | nil => rfl
  | cons p rest ih =>
    have hp := h p (List.mem_cons_self _ _)
    have hrest := ih (fun q hq => h q (List.mem_cons_of_mem _ hq))
    cases hnp : net p with
    | none => simpa [loadPhonesAux, hnp] using hrest
    | some data =>
      have ht : truthy (getItems data) = false := by
        simpa [accepted, hnp] using hp
      simpa [loadPhonesAux, hnp, ht] using hrest

/-- First-success case of the loader loop. -/
theorem loadPhonesAux_first_success (net : Network) (pre post : List String)
    (p : String) (d : JValue) (hpre : ∀ q ∈ pre, accepted (net q) = false)
    (hp : net p = some d) (ht : truthy (getItems d) = true) :
    loadPhonesAux net (pre ++ p :: post) = .ok (getItems d) := by
  induction pre with
  | nil => simp [loadPhonesAux, hp, ht]
  | cons q pre ih =>
    have hq := hpre q (List.mem_cons_self _ _)
    have hrest := ih (fun x hx => hpre x (List.mem_cons_of_mem _ hx))
    cases hnq : net q with
    | none => simpa [loadPhonesAux, hnq] using hrest
    | some data =>
      have htq : truthy (getItems data) = false := by
        simpa [accepted, hnq] using hq
      simpa [loadPhonesAux, hnq, htq] using hrest

/-- C3 (amended): the loader walks the candidate paths in order and
returns the truthy `items` member of the first candidate whose fetch and
parse succeed with such a member; a candidate parsing directly as a bare
array is not accepted; when every candidate fails, the single terminal
no-dataset error is raised and surfaced as the visible load-error
message. -/
theorem loadPhones_spec (net : Network) :
    ((∀ p ∈ phonePaths, accepted (net p) = false) →
        loadPhones net = .error "No phone dataset found"
          ∧ bootErrorText net = some loadErrorMsg)
      ∧ (∀ pre p post d, phonePaths = pre ++ p :: post →
          (∀ q ∈ pre, accepted (net q) = false) →
          net p = some d → truthy (getItems d) = true →
          loadPhones net = .ok (getItems d)) := by
  constructor
  · intro h
    have he := loadPhonesAux_all_fail net phonePaths h
    refine ⟨he, ?_⟩
    simp [bootErrorText, loadPhones, he]
  · intro pre p post d hsplit hpre hp ht
    have := loadPhonesAux_first_success net pre post p d hpre hp ht
    simpa [loadPhones, hsplit] using this

/-- C3 counterexample: the first candidate parses as JSON that is
directly an array of records, yet the loader does not return it — with
all other candidates failing, the terminal error is raised instead. -/
theorem loadPhones_bare_array_counterexample :
    netBareArray "/spec-ledger/data/phones.json"
        = some (.arr [.obj [("id", .str "a"), ("brand", .str "Acme")]])
      ∧ loadPhones netBareArray = .error "No phone dataset found" :=
  ⟨rfl, rfl⟩

theorem loadPhones_spec_witness :
    loadPhones netFail = .error "No phone dataset found"
      ∧ bootErrorText netFail = some loadErrorMsg :=
  (loadPhones_spec netFail).1 (by intro p _; rfl)

/-- C4: a record passes the index filter exactly when the brand
constraint is empty or strictly equals the record brand, and the query is
empty or a case-insensitive substring of the search template
concatenating brand, model, id and chipset name; on the specification
scenario dataset with query z1 exactly one card remains. -/
theorem recordMatches_iff :
    (∀ (i : Phone) (brandVal qVal : String),
        recordMatches brandVal qVal i = true ↔
          ((brandVal = "" ∨ getField i "brand" = .str brandVal)
            ∧ (qVal = "" ∨ strContains (lowerStr (searchStr i)) (lowerStr qVal) = true)))
      ∧ (filteredItems [acmeX1] "" "z1").length = 1 := by
  constructor
  · intro i bv q
    have htext : ∀ s : String, text (.str s) = lowerStr s := fun _ => rfl
    have h0 : lowerStr "" = "" := rfl
    by_cases hb : bv = ""
    · subst hb
      by_cases hq : q = ""
      · subst hq
        simp [recordMatches, htext, h0]
      · have hlq : (lowerStr q == "") = false :=
          beq_eq_false_iff_ne.mpr (fun h => hq ((lowerStr_eq_empty q).mp h))
        simp [recordMatches, htext, hq, hlq]
    · by_cases hbe : getField i "brand" = .str bv
      · have hse : strictEqStr (getField i "brand") bv = true := (strictEqStr_iff _ _).mpr hbe
        by_cases hq : q = ""
        · subst hq
          simp [recordMatches, htext, h0, hb, hse, hbe, strictEqStr]
        · have hlq : (lowerStr q == "") = false :=
            beq_eq_false_iff_ne.mpr (fun h => hq ((lowerStr_eq_empty q).mp h))
          simp [recordMatches, htext, hb, hse, hbe, hq, hlq, strictEqStr]
      · have hse : strictEqStr (getField i "brand") bv = false := by
          cases hx : strictEqStr (getField i "brand") bv
          · rfl
          · exact absurd ((strictEqStr_iff _ _).mp hx) hbe
        simp [recordMatches, htext, hb, hse, hbe]
  · decide

/-- C5: relaxing the text filter is monotone: every record passing the
filter for a query also passes it for the empty query under the same
brand constraint. -/
theorem filteredItems_relax_query (D : List Phone) (brandVal qVal : String)
    (_hD : D ≠ []) :
    ∀ x ∈ filteredItems D brandVal qVal, x ∈ filteredItems D brandVal "" := by
  intro x hx
  rcases List.mem_filter.mp hx with ⟨hxD, hm⟩
  refine List.mem_filter.mpr ⟨hxD, ?_⟩
  have htext0 : (text (.str "") == "") = true := rfl
  by_cases hb : (brandVal != "" && !(strictEqStr (getField x "brand") brandVal)) = true
  · rw [recordMatches, if_pos hb] at hm
    exact absurd hm (by simp)
  · have hbf : (brandVal != "" && !(strictEqStr (getField x "brand") brandVal)) = false := by
      revert hb
      cases brandVal != "" && !(strictEqStr (getField x "brand") brandVal) <;> simp
    simp [recordMatches, hbf, htext0]

theorem filteredItems_relax_query_witness :
    acmeX1 ∈ filteredItems [acmeX1] "" "" :=
  filteredItems_relax_query [acmeX1] "" "z1" (List.cons_ne_nil _ _) acmeX1 (by
    have h : filteredItems [acmeX1] "" "z1" = [acmeX1] := rfl
    rw [h]
    exact List.mem_cons_self _ _)

theorem mem_addSpecKey (acc : List String) (k a : String) :
    a ∈ addSpecKey acc k ↔ a ∈ acc ∨ (a = k ∧ k ≠ "id" ∧ k ≠ "source_url") := by
  unfold addSpecKey
  by_cases h1 : (k != "id" && k != "source_url") = true
  · rcases Bool.and_eq_true_iff.mp h1 with ⟨hk1, hk2⟩
    have hk1n : k ≠ "id" := bne_iff_ne.mp hk1
    have hk2n : k ≠ "source_url" := bne_iff_ne.mp hk2
    rw [if_pos h1]
    by_cases h2 : acc.contains k = true
    · have hkm : k ∈ acc := by simpa [List.contains] using h2
      rw [if_pos h2]
      constructor
      · exact Or.inl
      · rintro (h | ⟨rfl, -, -⟩)
        · exact h
        · exact hkm
    · rw [if_neg h2, List.mem_append]
      constructor
      · rintro (h | h)
        · exact Or.inl h
        · rcases List.mem_singleton.mp h with rfl
          exact Or.inr ⟨rfl, hk1n, hk2n⟩
      · rintro (h | ⟨rfl, -, -⟩)
        · exact Or.inl h
        · exact Or.inr (List.mem_singleton.mpr rfl)
  · rw [if_neg h1]
    have : k = "id" ∨ k = "source_url" := by
      by_cases ha : k = "id"
      · exact Or.inl ha
      · by_cases hb : k = "source_url"
        · exact Or.inr hb
        · exact absurd (Bool.and_eq_true_iff.mpr ⟨bne_iff_ne.mpr ha, bne_iff_ne.mpr hb⟩) h1
    constructor
    · exact Or.inl
    · rintro (h | ⟨rfl, hk1, hk2⟩)
      · exact h
      · rcases this with h | h
        · exact absurd h hk1
        · exact absurd h hk2

theorem mem_foldl_addSpecKey (ks acc : List String) (a : String) :
    a ∈ ks.foldl addSpecKey acc
      ↔ a ∈ acc ∨ (a ∈ ks ∧ a ≠ "id" ∧ a ≠ "source_url") := by
  induction ks generalizing acc with
  | nil => simp
  | cons k ks ih =>
    rw [List.foldl_cons, ih, mem_addSpecKey]
    constructor
    · rintro ((h | ⟨rfl, h1, h2⟩) | ⟨hks, h1, h2⟩)
      · exact Or.inl h
      · exact Or.inr ⟨List.mem_cons_self _ _, h1, h2⟩
      · exact Or.inr ⟨List.mem_cons_of_mem _ hks, h1, h2⟩
    · rintro (h | ⟨hmem, h1, h2⟩)
      · exact Or.inl (Or.inl h)
      · rcases List.mem_cons.mp hmem with rfl | hks
        · exact Or.inl (Or.inr ⟨rfl, h1, h2⟩)
        · exact Or.inr ⟨hks, h1, h2⟩

theorem mem_allSpecsOf (sel : List Phone) (a : String) :
    a ∈ allSpecsOf sel
      ↔ (∃ p ∈ sel, a ∈ p.map Prod.fst) ∧ a ≠ "id" ∧ a ≠ "source_url" := by
  have general : ∀ (ps : List Phone) (acc : List String),
      a ∈ ps.foldl (fun acc p => (p.map Prod.fst).foldl addSpecKey acc) acc
        ↔ a ∈ acc ∨ ((∃ p ∈ ps, a ∈ p.map Prod.fst) ∧ a ≠ "id" ∧ a ≠ "source_url") := by
    intro ps
    induction ps with
    | nil => intro acc; simp
    | cons p ps ih =>
      intro acc
      rw [List.foldl_cons, ih, mem_foldl_addSpecKey]
      constructor
      · rintro ((h | ⟨hk, h1, h2⟩) | ⟨⟨q, hq, hk⟩, h1, h2⟩)
        · exact Or.inl h
        · exact Or.inr ⟨⟨p, List.mem_cons_self _ _, hk⟩, h1, h2⟩
        · exact Or.inr ⟨⟨q, List.mem_cons_of_mem _ hq, hk⟩, h1, h2⟩
      · rintro (h | ⟨⟨q, hq, hk⟩, h1, h2⟩)
        · exact Or.inl (Or.inl h)
        · rcases List.mem_cons.mp hq with rfl | hq
          · exact Or.inl (Or.inr ⟨hk, h1, h2⟩)
          · exact Or.inr ⟨⟨q, hq, hk⟩, h1, h2⟩
  simpa [allSpecsOf] using general sel []

/-- C6: the displayable fields are the union of the records own keys
minus the identity fields, projected through the canonical order: a key
yields a row exactly when it lies in the canonical order and in that
union; the rows are one per key, in canonical order, and keys outside the
canonical order yield none. -/
theorem displayedSpecs_spec (sel : List Phone) (_hsel : sel ≠ []) :
    (∀ s, s ∈ displayedSpecs sel
        ↔ (s ∈ specOrder
            ∧ (∃ p ∈ sel, s ∈ p.map Prod.fst) ∧ s ≠ "id" ∧ s ≠ "source_url"))
      ∧ (displayedSpecs sel).Nodup
      ∧ (displayedSpecs sel).Sublist specOrder := by
  refine ⟨?_, ?_, List.filter_sublist _⟩
  · intro s
    rw [displayedSpecs, List.mem_filter]
    constructor
    · rintro ⟨hso, hc⟩
      exact ⟨hso, (mem_allSpecsOf sel s).mp (by simpa [List.contains] using hc)⟩
    · rintro ⟨hso, hrest⟩
      refine ⟨hso, ?_⟩
      have := (mem_allSpecsOf sel s).mpr hrest
      simpa [List.contains] using this
  · exact List.Sublist.nodup (List.filter_sublist _) (by decide)

theorem displayedSpecs_spec_witness : (displayedSpecs [acmeX1]).Nodup :=
  (displayedSpecs_spec [acmeX1] (List.cons_ne_nil _ _)).2.1

theorem jsArrParts_eq_map (xs : List JValue) (h : ∀ v ∈ xs, truthy v = true) :
    jsArrParts xs = xs.map jsString := by
  induction xs with
  | nil => rfl
  | cons v rest ih =>
    have hv := h v (List.mem_cons_self _ _)
    have hr := ih (fun w hw => h w (List.mem_cons_of_mem _ hw))
    cases v <;> simp_all [jsArrParts, truthy]

/-- C7 (amended): flattenValue renders null and undefined as the dash
glyph, flattens an object by joining the string forms of its truthy
values with a slash separator — falsy (empty or null) leaves are omitted
from the join, not rendered as a dash — and stringifies any other
value. -/
theorem flattenValue_spec :
    (flattenValue JValue.nullV = "—")
      ∧ (flattenValue JValue.undefV = "—")
      ∧ (∀ fields : List (String × JValue),
          flattenValue (.obj fields)
            = flattenValue (.obj (fields.filter (fun kv => truthy kv.2))))
      ∧ (∀ fields : List (String × JValue), (∀ kv ∈ fields, truthy kv.2 = true) →
          flattenValue (.obj fields)
            = String.intercalate " / " (fields.map (fun kv => jsString kv.2)))
      ∧ (∀ s, flattenValue (JValue.str s) = s)
      ∧ (∀ n : Int, flattenValue (JValue.num n) = toString n) := by
  refine ⟨rfl, rfl, ?_, ?_, fun _ => rfl, fun _ => rfl⟩
  · intro fields
    have h : ((fields.filter (fun kv => truthy kv.2)).map Prod.snd).filter truthy
        = (fields.map Prod.snd).filter truthy := by
      induction fields with
      | nil => rfl
      | cons kv rest ih =>
        cases hkv : truthy kv.2 <;> simp [List.filter_cons, hkv, ih]
    simp only [flattenValue, h]
  · intro fields h
    have hf : (fields.map Prod.snd).filter truthy = fields.map Prod.snd :=
      List.filter_eq_self.mpr (by
        intro v hv
        rcases List.mem_map.mp hv with ⟨kv, hkv, rfl⟩
        exact h kv hkv)
    have hall : ∀ v ∈ fields.map Prod.snd, truthy v = true := by
      intro v hv
      rcases List.mem_map.mp hv with ⟨kv, hkv, rfl⟩
      exact h kv hkv
    simp only [flattenValue, hf, jsArrParts_eq_map _ hall, List.map_map]
    rfl

/-- C7 counterexample: a null leaf inside a nested object is dropped by
the join rather than rendered as a dash glyph. -/
theorem flattenValue_null_leaf_counterexample :
    flattenValue (.obj [("a", .nullV), ("b", .str "x")]) = "x"
      ∧ flattenValue (.obj [("a", .nullV)]) = ""
      ∧ strContains "x" "—" = false
      ∧ ("" : String) ≠ "—" :=
  ⟨rfl, rfl, by decide, by decide⟩

theorem flattenValue_spec_witness :
    flattenValue (.obj [("name", .str "Z1"), ("cores", .num 8)]) = "Z1 / 8" :=
  (flattenValue_spec.2.2.2.1 [("name", JValue.str "Z1"), ("cores", JValue.num 8)]
    (by decide)).trans rfl

/-- C8: structured-data injection is idempotent on the head script tags:
a second invocation on the same selection finds the product-schema tag
appended by the first and appends nothing. -/
theorem addStructuredData_idempotent (sel : List Phone) (head : List ScriptTag) :
    addStructuredData sel (addStructuredData sel head) = addStructuredData sel head := by
  by_cases hsel : sel.isEmpty = true
  · simp [addStructuredData, hsel]
  · have hs : sel.isEmpty = false := by
      revert hsel
      cases sel.isEmpty <;> simp
    by_cases hany : head.any (fun t => t.productSchema) = true
    · simp [addStructuredData, hs, hany]
    · have ha : head.any (fun t => t.productSchema) = false := by
        revert hany
        cases head.any fun t => t.productSchema <;> simp
      simp [addStructuredData, hs, ha, List.any_append]

/-- C9 (amended): a page with a data-ids attribute takes its identifiers
from that attribute, query parameters notwithstanding; only a page
without such an element uses the trimmed comma-split ids query
parameter. -/
theorem getComparisonIds_spec (page : PageEnv) :
    (page.dataIdsAttr = none → getComparisonIds page = getQueryParams page.idsParam)
      ∧ (∀ v, page.dataIdsAttr = some v → v ≠ "" → getComparisonIds page = splitTrim v)
      ∧ (∀ s, page.dataIdsAttr = none → page.idsParam = some s → s ≠ "" →
          getComparisonIds page = splitTrim s)
      ∧ getComparisonIds { dataIdsAttr := none, idsParam := some " a ,b " } = ["a", "b"] := by
  refine ⟨?_, ?_, ?_, rfl⟩
  · intro h
    simp [getComparisonIds, h]
  · intro v h hv
    have hb : (v != "") = true := bne_iff_ne.mpr hv
    simp [getComparisonIds, h, hb]
  · intro s h hs hsne
    have hb : (s != "") = true := bne_iff_ne.mpr hsne
    simp [getComparisonIds, getQueryParams, h, hs, hb]

/-- C9 counterexample: with both a data-ids attribute and an ids query
parameter present, the attribute wins — the identifiers are not taken
from the URL. -/
theorem getComparisonIds_precedence_counterexample :
    pageBoth.idsParam = some "b"
      ∧ getQueryParams pageBoth.idsParam = ["b"]
      ∧ getComparisonIds pageBoth = ["a"]
      ∧ (["a"] : List String) ≠ ["b"] :=
  ⟨rfl, rfl, rfl, by decide⟩

theorem getComparisonIds_spec_witness :
    getComparisonIds { dataIdsAttr := some "a", idsParam := none } = splitTrim "a" :=
  (getComparisonIds_spec { dataIdsAttr := some "a", idsParam := none }).2.1 "a" rfl
    (by decide)

end SpecLedger
